import Mathlib

/-!
Verification development for the chess rules engine in `src/chess.ts`
(repository `horrific-chess`).

The engine is embedded shallowly:

* JS `number` coordinates are modelled as `Int`.
* The mutable `board` field (`ChessPiece[][]`, indexed `[y][x]`, where a
  missing entry is `null`) is modelled as `Grid := List (List (Option
  ChessPiece))`.
* JS exceptions matter for the claims about `isLegal` and the check
  detectors: accessing `this.board[y][x]` throws a `TypeError` when row `y`
  does not exist (`this.board[y]` is `undefined`), while an out-of-range
  column read merely yields `undefined`.  Functions that can throw are
  modelled in `Except Grid`, the error value carrying the grid as it was at
  the moment of the throw (the `this.board` the caller would observe after
  the exception propagates).
* Functions whose loops only touch rows `0..7` (and which the claims only
  exercise on well-formed 8×8 grids) are modelled as pure functions over
  total cell reads.
-/

namespace HChess

/-- The `enum ChessPieceType` from the source. -/
inductive ChessPieceType where
  | King | Queen | Rook | Bishop | Knight | Pawn
deriving DecidableEq, Repr

/-- The `enum Colour` from the source. -/
inductive Colour where
  | White | Black
deriving DecidableEq, Repr

/-- The `class ChessPiece`: combination of piece type and colour. -/
structure ChessPiece where
  type : ChessPieceType
  colour : Colour
deriving DecidableEq, Repr

/-- The `ChessPiece.is`: shortcut to check if the piece is a particular piece. -/
def ChessPiece.is (p : ChessPiece) (c : Colour) (t : ChessPieceType) : Prop :=
  p.colour = c ∧ p.type = t

instance (p : ChessPiece) (c : Colour) (t : ChessPieceType) :
    Decidable (p.is c t) := by
  unfold ChessPiece.is; infer_instance

/-- The `class Square`: a 2-dimensional square with JS-number coordinates. -/
structure Square where
  x : Int
  y : Int
deriving DecidableEq, Repr

/-- The `class Move`: a move made by a player (`from`, `to`, optional
`promotion`).  `from` is a Lean keyword, hence the field names. -/
structure MoveRec where
  fromSq : Square
  toSq : Square
  promotion : Option ChessPieceType
deriving DecidableEq, Repr

/-- The `board: ChessPiece[][]` field: rows indexed by `y`, cells by `x`,
`null` cells as `none`. -/
abbrev Grid := List (List (Option ChessPiece))

/-- The components serialized by `boardStateHash` (`JSON.stringify` of the
grid, the four castling flags, the two en-passant arrays and the turn).
`JSON.stringify` is injective on these components — two states produce the
same string iff the components are structurally equal — so the hash is
modelled as the tuple itself. -/
structure PositionKey where
  board : Grid
  whiteCastleShort : Bool
  whiteCastleLong : Bool
  blackCastleShort : Bool
  blackCastleLong : Bool
  whiteEnPassant : List Bool
  blackEnPassant : List Bool
  turn : Colour
deriving DecidableEq, Repr

/-- The mutable fields of `class ChessBoard`. -/
structure BoardState where
  board : Grid
  whiteCastleShort : Bool
  whiteCastleLong : Bool
  blackCastleShort : Bool
  blackCastleLong : Bool
  whiteEnPassant : List Bool
  blackEnPassant : List Bool
  turn : Colour
  turnNumber : Int
  moves : List MoveRec
  fiftyMoveRule : Int
  fiftyMoveRuleReached : Bool
  history : List (PositionKey × Int)
  threefoldRepetition : Bool
deriving DecidableEq, Repr

/-- Total cell read: JS `this.board[y][x]` in the cases where it does not
throw.  A negative index or an out-of-range column yields `undefined`,
modelled as `none`. -/
def getCell (g : Grid) (x y : Int) : Option ChessPiece :=
  if 0 ≤ x ∧ 0 ≤ y then
    match g.get? y.toNat with
    | some row => (row.get? x.toNat).getD none
    | none => none
  else none

/-- Total cell write: JS `this.board[y][x] = p` in the cases where it does
not throw.  A write outside the 8×8 area of a well-formed grid is dropped
(JS would store a stray array property that the engine never reads back). -/
def setCell (g : Grid) (x y : Int) (p : Option ChessPiece) : Grid :=
  if 0 ≤ x ∧ 0 ≤ y then
    match g.get? y.toNat with
    | some row => g.set y.toNat (row.set x.toNat p)
    | none => g
  else g

/-- Whether row `y` of the grid exists (JS `this.board[y] !== undefined`). -/
def rowOk (g : Grid) (y : Int) : Prop := 0 ≤ y ∧ y.toNat < g.length

instance (g : Grid) (y : Int) : Decidable (rowOk g y) := by
  unfold rowOk; infer_instance

/-- The `ChessBoard.pieceAt` / a direct `this.board[y][x]` read, with the JS
throwing semantics: accessing a cell of a missing row raises a `TypeError`.
The error value is the (unchanged) grid. -/
def pieceAtE (g : Grid) (x y : Int) : Except Grid (Option ChessPiece) :=
  if rowOk g y then .ok (getCell g x y) else .error g

/-- The `ChessBoard.setAt` / a direct `this.board[y][x] = p` write, with the JS
throwing semantics for a missing row. -/
def setAtE (g : Grid) (x y : Int) (p : Option ChessPiece) :
    Except Grid Grid :=
  if rowOk g y then .ok (setCell g x y p) else .error g

/-- Read of a JS boolean array at a possibly out-of-range index
(`this.blackEnPassant[x - 1]`): a missing entry is `undefined`, which is
falsy everywhere the engine uses it. -/
def epGet (l : List Bool) (i : Int) : Bool :=
  if 0 ≤ i then l.getD i.toNat false else false

/-- Write of a JS boolean array at an index (`this.whiteEnPassant[x] =
true`); the engine only ever writes in-range indices. -/
def epSet (l : List Bool) (i : Int) (v : Bool) : List Bool :=
  if 0 ≤ i then l.set i.toNat v else l

/-- Well-formedness of the grid: 8 rows of 8 cells, as built by
`ChessBoard.empty`. -/
def okGrid (g : Grid) : Prop :=
  g.length = 8 ∧ ∀ r ∈ g, r.length = 8

instance (g : Grid) : Decidable (okGrid g) := by
  unfold okGrid; infer_instance

/-- A coordinate in `[0,8)`. -/
def inB (i : Int) : Prop := 0 ≤ i ∧ i < 8

instance (i : Int) : Decidable (inB i) := by
  unfold inB; infer_instance

/-- The `Square.toString`: letter `a`–`h` from `x`, then the decimal rendering
of `y + 1`. -/
def Square.toStr (sq : Square) : String :=
  String.mk [Char.ofNat (97 + sq.x).toNat] ++ toString (sq.y + 1)

/-- The `Square.fromString`: `charCodeAt(0) - 'a'.charCodeAt(0)` and
`charCodeAt(1) - '1'.charCodeAt(0)`. -/
def Square.fromStr (s : String) : Square :=
  { x := (((s.data.getD 0 'a').toNat : Int)) - 97
    y := (((s.data.getD 1 '1').toNat : Int)) - 49 }

/-- One sliding-piece `while` loop of `possibleMoves` (bishop / rook / queen
rays).  The loop condition checks exactly the bounds the source checks for
the direction `(dx, dy)` (e.g. `diag.x < 8 && diag.y < 8` for `(+1,+1)`,
`line.x >= 0` for `(-1,0)`).  A friendly piece stops the walk before the
square is offered; an enemy piece stops it after.  `cand` is the
`!checkCheck || this.isLegal(x, y, _, _)` guard of the enclosing call.  The
fuel bounds the walk; `8` steps are always enough since the coordinate
moves by one towards a bound in `[0,8)` on every iteration. -/
def rayWalk (g : Grid) (friend : Colour) (cand : Int → Int → Except Grid Bool)
    (dx dy : Int) : Nat → Int → Int → Except Grid (List Square)
  | 0, _, _ => .ok []
  | fuel + 1, cx, cy =>
    if (dx > 0 → cx < 8) ∧ (dx < 0 → 0 ≤ cx) ∧ (dy > 0 → cy < 8) ∧ (dy < 0 → 0 ≤ cy) then do
      let p ← pieceAtE g cx cy
      match p with
      | some q =>
        if q.colour = friend then .ok []
        else do
          let k ← cand cx cy
          .ok (if k then [Square.mk cx cy] else [])
      | none => do
          let k ← cand cx cy
          let rest ← rayWalk g friend cand dx dy fuel (cx + dx) (cy + dy)
          .ok ((if k then [Square.mk cx cy] else []) ++ rest)
    else .ok []

/-- One knight/king candidate square of `possibleMoves`: the square is
offered when it is empty or holds a non-friendly piece (`piece == null ||
piece.colour != <friend>`; for the king the source writes `piece.colour ==
<enemy>`, identical for a two-valued colour), subject to the `cand`
legality guard.  The source's per-candidate bounds check is done at the
call site. -/
def stepCand (g : Grid) (friend : Colour) (cand : Int → Int → Except Grid Bool)
    (tx ty : Int) : Except Grid (List Square) := do
  let p ← pieceAtE g tx ty
  match p with
  | some q =>
    if q.colour ≠ friend then do
      let k ← cand tx ty
      .ok (if k then [Square.mk tx ty] else [])
    else .ok []
  | none => do
    let k ← cand tx ty
    .ok (if k then [Square.mk tx ty] else [])

/-- The body of `possibleMoves(x, y, checkCheck)`, parameterized by the
legality guard `cand` (which is `!checkCheck || this.isLegal(x, y, tx, ty)`)
and by the values `wchk` / `bchk` of `this.whiteInCheck()` /
`this.blackInCheck()` used by the castling blocks.  The source tests the
twelve `piece.is(colour, type)` combinations with a sequence of mutually
exclusive `if` blocks; here this is a single match on `(colour, type)`.
Moves are accumulated in the source's push order. -/
def possibleMovesAux (st : BoardState) (x y : Int) (checkCheck : Bool)
    (cand : Int → Int → Except Grid Bool) (wchk bchk : Except Grid Bool) :
    Except Grid (List Square) :=
  let g := st.board
  if x ≥ 8 ∨ y ≥ 8 ∨ x < 0 ∨ y < 0 then .ok []
  else do
    let piece? ← pieceAtE g x y
    match piece? with
    | none => .ok []
    | some piece =>
      match piece.colour, piece.type with
      | Colour.White, ChessPieceType.Pawn => do
        let fwd ← pieceAtE g x (y + 1)
        let pushes ←
          if fwd = none then do
            let k1 ← cand x (y + 1)
            let single := if k1 then [Square.mk x (y + 1)] else []
            if y = 1 then do
              let fwd2 ← pieceAtE g x (y + 2)
              if fwd2 = none then do
                let k2 ← cand x (y + 2)
                pure (single ++ if k2 then [Square.mk x (y + 2)] else [])
              else pure single
            else pure single
          else pure []
        let leftCap ← do
          let lc ← pieceAtE g (x - 1) (y + 1)
          match lc with
          | some q =>
            if q.colour = Colour.Black then do
              let k ← cand (x - 1) (y + 1)
              pure (if k then [Square.mk (x - 1) (y + 1)] else [])
            else pure []
          | none => pure []
        let rightCap ← do
          let rc ← pieceAtE g (x + 1) (y + 1)
          match rc with
          | some q =>
            if q.colour = Colour.Black then do
              let k ← cand (x + 1) (y + 1)
              pure (if k then [Square.mk (x + 1) (y + 1)] else [])
            else pure []
          | none => pure []
        let leftEp ← do
          let le ← pieceAtE g (x - 1) y
          match le with
          | some q =>
            if q.is Colour.Black ChessPieceType.Pawn ∧
                epGet st.blackEnPassant (x - 1) = true then do
              let k ← cand (x - 1) (y + 1)
              pure (if k then [Square.mk (x - 1) (y + 1)] else [])
            else pure []
          | none => pure []
        let rightEp ← do
          let re ← pieceAtE g (x + 1) y
          match re with
          | some q =>
            if q.is Colour.Black ChessPieceType.Pawn ∧
                epGet st.blackEnPassant (x + 1) = true then do
              let k ← cand (x + 1) (y + 1)
              pure (if k then [Square.mk (x + 1) (y + 1)] else [])
            else pure []
          | none => pure []
        .ok (pushes ++ leftCap ++ rightCap ++ leftEp ++ rightEp)
      | Colour.Black, ChessPieceType.Pawn => do
        let fwd ← pieceAtE g x (y - 1)
        let pushes ←
          if fwd = none then do
            let k1 ← cand x (y - 1)
            let single := if k1 then [Square.mk x (y - 1)] else []
            if y = 6 then do
              let fwd2 ← pieceAtE g x (y - 2)
              if fwd2 = none then do
                let k2 ← cand x (y - 2)
                pure (single ++ if k2 then [Square.mk x (y - 2)] else [])
              else pure single
            else pure single
          else pure []
        let leftCap ← do
          let lc ← pieceAtE g (x - 1) (y - 1)
          match lc with
          | some q =>
            if q.colour = Colour.White then do
              let k ← cand (x - 1) (y - 1)
              pure (if k then [Square.mk (x - 1) (y - 1)] else [])
            else pure []
          | none => pure []
        let rightCap ← do
          let rc ← pieceAtE g (x + 1) (y - 1)
          match rc with
          | some q =>
            if q.colour = Colour.White then do
              let k ← cand (x + 1) (y - 1)
              pure (if k then [Square.mk (x + 1) (y - 1)] else [])
            else pure []
          | none => pure []
        let leftEp ← do
          let le ← pieceAtE g (x - 1) y
          match le with
          | some q =>
            if q.is Colour.White ChessPieceType.Pawn ∧
                epGet st.whiteEnPassant (x - 1) = true then do
              let k ← cand (x - 1) (y - 1)
              pure (if k then [Square.mk (x - 1) (y - 1)] else [])
            else pure []
          | none => pure []
        let rightEp ← do
          let re ← pieceAtE g (x + 1) y
          match re with
          | some q =>
            if q.is Colour.White ChessPieceType.Pawn ∧
                epGet st.whiteEnPassant (x + 1) = true then do
              let k ← cand (x + 1) (y - 1)
              pure (if k then [Square.mk (x + 1) (y - 1)] else [])
            else pure []
          | none => pure []
        .ok (pushes ++ leftCap ++ rightCap ++ leftEp ++ rightEp)
      | colour, ChessPieceType.Bishop => do
        let r1 ← rayWalk g colour cand 1 1 8 (x + 1) (y + 1)
        let r2 ← rayWalk g colour cand 1 (-1) 8 (x + 1) (y - 1)
        let r3 ← rayWalk g colour cand (-1) 1 8 (x - 1) (y + 1)
        let r4 ← rayWalk g colour cand (-1) (-1) 8 (x - 1) (y - 1)
        .ok (r1 ++ r2 ++ r3 ++ r4)
      | colour, ChessPieceType.Knight => do
        let m1 ← if x - 1 ≥ 0 ∧ y - 2 ≥ 0 then stepCand g colour cand (x - 1) (y - 2) else pure []
        let m2 ← if x - 2 ≥ 0 ∧ y - 1 ≥ 0 then stepCand g colour cand (x - 2) (y - 1) else pure []
        let m3 ← if x + 1 < 8 ∧ y - 2 ≥ 0 then stepCand g colour cand (x + 1) (y - 2) else pure []
        let m4 ← if x + 2 < 8 ∧ y - 1 ≥ 0 then stepCand g colour cand (x + 2) (y - 1) else pure []
        let m5 ← if x - 1 ≥ 0 ∧ y + 2 < 8 then stepCand g colour cand (x - 1) (y + 2) else pure []
        let m6 ← if x - 2 ≥ 0 ∧ y + 1 < 8 then stepCand g colour cand (x - 2) (y + 1) else pure []
        let m7 ← if x + 1 < 8 ∧ y + 2 < 8 then stepCand g colour cand (x + 1) (y + 2) else pure []
        let m8 ← if x + 2 < 8 ∧ y + 1 < 8 then stepCand g colour cand (x + 2) (y + 1) else pure []
        .ok (m1 ++ m2 ++ m3 ++ m4 ++ m5 ++ m6 ++ m7 ++ m8)
      | colour, ChessPieceType.Rook => do
        let r1 ← rayWalk g colour cand 1 0 8 (x + 1) y
        let r2 ← rayWalk g colour cand (-1) 0 8 (x - 1) y
        let r3 ← rayWalk g colour cand 0 1 8 x (y + 1)
        let r4 ← rayWalk g colour cand 0 (-1) 8 x (y - 1)
        .ok (r1 ++ r2 ++ r3 ++ r4)
      | colour, ChessPieceType.Queen => do
        let d1 ← rayWalk g colour cand 1 1 8 (x + 1) (y + 1)
        let d2 ← rayWalk g colour cand (-1) (-1) 8 (x - 1) (y - 1)
        let d3 ← rayWalk g colour cand 1 (-1) 8 (x + 1) (y - 1)
        let d4 ← rayWalk g colour cand (-1) 1 8 (x - 1) (y + 1)
        let l1 ← rayWalk g colour cand 1 0 8 (x + 1) y
        let l2 ← rayWalk g colour cand (-1) 0 8 (x - 1) y
        let l3 ← rayWalk g colour cand 0 1 8 x (y + 1)
        let l4 ← rayWalk g colour cand 0 (-1) 8 x (y - 1)
        .ok (d1 ++ d2 ++ d3 ++ d4 ++ l1 ++ l2 ++ l3 ++ l4)
      | colour, ChessPieceType.King => do
        let m1 ← if x + 1 < 8 ∧ y + 1 < 8 then stepCand g colour cand (x + 1) (y + 1) else pure []
        let m2 ← if x + 1 < 8 ∧ y - 1 ≥ 0 then stepCand g colour cand (x + 1) (y - 1) else pure []
        let m3 ← if x - 1 ≥ 0 ∧ y + 1 < 8 then stepCand g colour cand (x - 1) (y + 1) else pure []
        let m4 ← if x - 1 ≥ 0 ∧ y - 1 ≥ 0 then stepCand g colour cand (x - 1) (y - 1) else pure []
        let m5 ← if x + 1 < 8 then stepCand g colour cand (x + 1) y else pure []
        let m6 ← if x - 1 ≥ 0 then stepCand g colour cand (x - 1) y else pure []
        let m7 ← if y + 1 < 8 then stepCand g colour cand x (y + 1) else pure []
        let m8 ← if y - 1 ≥ 0 then stepCand g colour cand x (y - 1) else pure []
        let inchk := if colour = Colour.White then wchk else bchk
        let castleShortRight :=
          if colour = Colour.White then st.whiteCastleShort else st.blackCastleShort
        let castleLongRight :=
          if colour = Colour.White then st.whiteCastleLong else st.blackCastleLong
        let cs ←
          if castleShortRight then do
            let p1 ← pieceAtE g (x + 1) y
            if p1 = none then do
              let p2 ← pieceAtE g (x + 2) y
              if p2 = none then
                if checkCheck then do
                  let chk ← inchk
                  if chk then pure []
                  else do
                    let k1 ← cand (x + 1) y
                    if k1 then do
                      let k2 ← cand (x + 2) y
                      pure (if k2 then [Square.mk (x + 2) y] else [])
                    else pure []
                else pure []
              else pure []
            else pure []
          else pure []
        let cl ←
          if castleLongRight then do
            let p1 ← pieceAtE g (x - 1) y
            if p1 = none then do
              let p2 ← pieceAtE g (x - 2) y
              if p2 = none then do
                let p3 ← pieceAtE g (x - 3) y
                if p3 = none then
                  if checkCheck then do
                    let chk ← inchk
                    if chk then pure []
                    else do
                      let k1 ← cand (x - 1) y
                      if k1 then do
                        let k2 ← cand (x - 2) y
                        if k2 then do
                          let k3 ← cand (x - 3) y
                          pure (if k3 then [Square.mk (x - 2) y] else [])
                        else pure []
                      else pure []
                  else pure []
                else pure []
              else pure []
            else pure []
          else pure []
        .ok (m1 ++ m2 ++ m3 ++ m4 ++ m5 ++ m6 ++ m7 ++ m8 ++ cs ++ cl)

/-- The `possibleMoves(x, y, false)`: with `checkCheck == false` every
`!checkCheck || isLegal(...)` guard short-circuits to `true` (no `isLegal`
call is made) and the castling blocks, which require `checkCheck`, never
fire — so the supplied guard and check values are never inspected. -/
def pseudoMoves (st : BoardState) (x y : Int) : Except Grid (List Square) :=
  possibleMovesAux st x y false (fun _ _ => .ok true) (.ok false) (.ok false)

/-- Inner loop of `whiteInCheck`: scan the generated destination squares
for one holding the white king. -/
def kingHuntW (st : BoardState) : List Square → Except Grid Bool
  | [] => .ok false
  | m :: rest => do
    let p ← pieceAtE st.board m.x m.y
    match p with
    | some q =>
      if q.is Colour.White ChessPieceType.King then .ok true
      else kingHuntW st rest
    | none => kingHuntW st rest

/-- Outer loops of `whiteInCheck` over the given coordinates (`y` outer,
`x` inner in the source): for every black piece, generate its moves with
`checkCheck == false` and look for the white king among the targets. -/
def whiteScan (st : BoardState) : List (Int × Int) → Except Grid Bool
  | [] => .ok false
  | (x, y) :: rest => do
    let p ← pieceAtE st.board x y
    match p with
    | some q =>
      if q.colour = Colour.Black then do
        let ms ← pseudoMoves st x y
        let found ← kingHuntW st ms
        if found then .ok true else whiteScan st rest
      else whiteScan st rest
    | none => whiteScan st rest

/-- Inner loop of `blackInCheck`. -/
def kingHuntB (st : BoardState) : List Square → Except Grid Bool
  | [] => .ok false
  | m :: rest => do
    let p ← pieceAtE st.board m.x m.y
    match p with
    | some q =>
      if q.is Colour.Black ChessPieceType.King then .ok true
      else kingHuntB st rest
    | none => kingHuntB st rest

/-- Outer loops of `blackInCheck`: for every white piece, generate its
moves with `checkCheck == false` and look for the black king. -/
def blackScan (st : BoardState) : List (Int × Int) → Except Grid Bool
  | [] => .ok false
  | (x, y) :: rest => do
    let p ← pieceAtE st.board x y
    match p with
    | some q =>
      if q.colour = Colour.White then do
        let ms ← pseudoMoves st x y
        let found ← kingHuntB st ms
        if found then .ok true else blackScan st rest
      else blackScan st rest
    | none => blackScan st rest

/-- The scan order of both check detectors: `y` from 0 to 7 outermost, `x`
from 0 to 7 inner. -/
def coords64 : List (Int × Int) :=
  ((List.range 8).map fun y => (List.range 8).map fun x => ((x : Int), (y : Int))).flatten

/-- The `whiteInCheck()`. -/
def whiteInCheckE (st : BoardState) : Except Grid Bool := whiteScan st coords64

/-- The `blackInCheck()`. -/
def blackInCheckE (st : BoardState) : Except Grid Bool := blackScan st coords64

/-- The `if (this.turn == Colour.White) check = whiteInCheck() else check =
blackInCheck()` block of `isLegal`: ask the moving side's check detector. -/
def inCheckOf (st : BoardState) : Except Grid Bool :=
  if st.turn = Colour.White then whiteInCheckE st else blackInCheckE st

/-- The `isLegal(xFrom, yFrom, xTo, yTo)`: `pretend` the relocation, ask the
moving side's check detector, `unpretend`, return the negated check flag.
On success the result carries the final `this.board`; on a throw inside the
check detector the error value is the still-mutated board (the source has
no `try`/`finally`, so `unpretend` is skipped). -/
def isLegalE (st : BoardState) (xFrom yFrom xTo yTo : Int) :
    Except Grid (Bool × Grid) := do
  let oldPiece ← pieceAtE st.board xTo yTo
  let movedPiece ← pieceAtE st.board xFrom yFrom
  let g1 ← setAtE st.board xFrom yFrom none
  let g2 ← setAtE g1 xTo yTo movedPiece
  let check ← inCheckOf { st with board := g2 }
  let r ← pieceAtE g2 xTo yTo
  let g3 ← setAtE g2 xFrom yFrom r
  let g4 ← setAtE g3 xTo yTo oldPiece
  .ok (!check, g4)

/-- The `isLegal` call as its callers use it: just the boolean.  On
success the final board equals the initial board (a theorem below proves
the apply/revert round-trip), so dropping the returned grid loses nothing;
on a throw the error still carries the corrupted board. -/
def isLegalB (st : BoardState) (xFrom yFrom xTo yTo : Int) : Except Grid Bool :=
  match isLegalE st xFrom yFrom xTo yTo with
  | .ok (b, _) => .ok b
  | .error g => .error g

/-- The `possibleMoves(x, y, checkCheck)`. -/
def possibleMoves (st : BoardState) (x y : Int) (checkCheck : Bool) :
    Except Grid (List Square) :=
  possibleMovesAux st x y checkCheck
    (fun tx ty => if checkCheck then isLegalB st x y tx ty else .ok true)
    (whiteInCheckE st) (blackInCheckE st)

/-- The `countPieces()`: number of non-null cells in rows/columns `0..7`. -/
def countPieces (g : Grid) : Nat :=
  coords64.countP fun c => (getCell g c.1 c.2).isSome

/-- The `boardStateHash()` (see `PositionKey`). -/
def boardStateHash (st : BoardState) : PositionKey :=
  ⟨st.board, st.whiteCastleShort, st.whiteCastleLong, st.blackCastleShort,
    st.blackCastleLong, st.whiteEnPassant, st.blackEnPassant, st.turn⟩

/-- The six counters accumulated by `insufficientMaterial()`.  The piece
counters count every non-pawn/queen/rook piece of the colour, kings
included. -/
structure MatCounts where
  whiteKnights : Nat
  whiteBishops : Nat
  whitePieces : Nat
  blackKnights : Nat
  blackBishops : Nat
  blackPieces : Nat
deriving DecidableEq, Repr

/-- The per-piece counter updates of `insufficientMaterial()`'s loop body
(only reached when the piece is not a pawn, queen or rook). -/
def bumpCounts (c : MatCounts) (p : ChessPiece) : MatCounts :=
  let c := if p.colour = Colour.White then { c with whitePieces := c.whitePieces + 1 } else c
  let c := if p.colour = Colour.Black then { c with blackPieces := c.blackPieces + 1 } else c
  let c := if p.is Colour.White ChessPieceType.Knight then { c with whiteKnights := c.whiteKnights + 1 } else c
  let c := if p.is Colour.White ChessPieceType.Bishop then { c with whiteBishops := c.whiteBishops + 1 } else c
  let c := if p.is Colour.Black ChessPieceType.Knight then { c with blackKnights := c.blackKnights + 1 } else c
  let c := if p.is Colour.Black ChessPieceType.Bishop then { c with blackBishops := c.blackBishops + 1 } else c
  c

/-- Pawn, queen or rook: any such piece makes `insufficientMaterial()`
return `false` immediately. -/
def isPQR (t : ChessPieceType) : Prop :=
  t = ChessPieceType.Pawn ∨ t = ChessPieceType.Queen ∨ t = ChessPieceType.Rook

instance (t : ChessPieceType) : Decidable (isPQR t) := by
  unfold isPQR; infer_instance

/-- The double loop of `insufficientMaterial()`: visit the cells in order,
returning `none` for the early `return false` on a pawn/queen/rook, or the
accumulated counters. -/
def imScan (g : Grid) : List (Int × Int) → MatCounts → Option MatCounts
  | [], acc => some acc
  | (x, y) :: rest, acc =>
    match getCell g x y with
    | none => imScan g rest acc
    | some p => if isPQR p.type then none else imScan g rest (bumpCounts acc p)

/-- The `insufficientMaterial()`.  The source sets
`whiteInsufficientMaterial` / `blackInsufficientMaterial` with four
successive `if`s per side; that is the disjunction written here. -/
def insufficientMaterial (st : BoardState) : Bool :=
  match imScan st.board coords64 ⟨0, 0, 0, 0, 0, 0⟩ with
  | none => false
  | some c =>
    decide (((c.whiteKnights = 0 ∧ c.whiteBishops = 0) ∨
        (c.whiteKnights = 1 ∧ c.whiteBishops = 0) ∨
        (c.whiteKnights = 0 ∧ c.whiteBishops = 1) ∨
        (c.whiteKnights = 2 ∧ c.whiteBishops = 0 ∧ c.blackPieces = 1)) ∧
      ((c.blackKnights = 0 ∧ c.blackBishops = 0) ∨
        (c.blackKnights = 1 ∧ c.blackBishops = 0) ∨
        (c.blackKnights = 0 ∧ c.blackBishops = 1) ∨
        (c.blackKnights = 2 ∧ c.blackBishops = 0 ∧ c.whitePieces = 1)))

/-- Loop of `whiteCanMove()`: first white piece with a non-empty legal move
list ends the scan. -/
def whiteCanScan (st : BoardState) : List (Int × Int) → Except Grid Bool
  | [] => .ok false
  | (x, y) :: rest => do
    let p ← pieceAtE st.board x y
    match p with
    | some q =>
      if q.colour = Colour.White then do
        let ms ← possibleMoves st x y true
        if ms.length > 0 then .ok true else whiteCanScan st rest
      else whiteCanScan st rest
    | none => whiteCanScan st rest

/-- The `whiteCanMove()`. -/
def whiteCanMoveE (st : BoardState) : Except Grid Bool := whiteCanScan st coords64

/-- Loop of `blackCanMove()`. -/
def blackCanScan (st : BoardState) : List (Int × Int) → Except Grid Bool
  | [] => .ok false
  | (x, y) :: rest => do
    let p ← pieceAtE st.board x y
    match p with
    | some q =>
      if q.colour = Colour.Black then do
        let ms ← possibleMoves st x y true
        if ms.length > 0 then .ok true else blackCanScan st rest
      else blackCanScan st rest
    | none => blackCanScan st rest

/-- The `blackCanMove()`. -/
def blackCanMoveE (st : BoardState) : Except Grid Bool := blackCanScan st coords64

/-- The `ended()`. -/
def endedE (st : BoardState) : Except Grid Bool :=
  if st.fiftyMoveRuleReached = true ∨ st.threefoldRepetition = true ∨
      insufficientMaterial st = true then .ok true
  else if st.turn = Colour.White then do
    let w ← whiteCanMoveE st
    if w = false then .ok true else .ok false
  else do
    let b ← blackCanMoveE st
    if b = false then .ok true else .ok false

/-- The `endReason()`. -/
def endReasonE (st : BoardState) : Except Grid (Option String) := do
  let e ← endedE st
  if e = false then .ok none
  else if insufficientMaterial st = true then .ok (some "Draw by insufficient material")
  else if st.fiftyMoveRuleReached = true then .ok (some "Draw by fifty move rule")
  else if st.threefoldRepetition = true then .ok (some "Draw by threefold repetition")
  else do
    let wcond ←
      if st.turn = Colour.White then do
        let cm ← whiteCanMoveE st
        if cm = false then whiteInCheckE st else .ok false
      else .ok false
    if wcond then .ok (some "Black wins by checkmate")
    else do
      let bcond ←
        if st.turn = Colour.Black then do
          let cm ← blackCanMoveE st
          if cm = false then blackInCheckE st else .ok false
        else .ok false
      if bcond then .ok (some "White wins by checkmate")
      else .ok (some "Draw by stalemate")

/-- The `this.history.has(k)`. -/
def histHas (h : List (PositionKey × Int)) (k : PositionKey) : Bool :=
  h.any fun e => e.1 == k

/-- The `this.history.get(k)`. -/
def histGet (h : List (PositionKey × Int)) (k : PositionKey) : Option Int :=
  (h.find? fun e => e.1 == k).map (·.2)

/-- The `this.history.set(k, v)`: a JS `Map` replaces in place when the key
exists, otherwise appends in insertion order. -/
def histSet (h : List (PositionKey × Int)) (k : PositionKey) (v : Int) :
    List (PositionKey × Int) :=
  if histHas h k then h.map fun e => if e.1 == k then (k, v) else e
  else h ++ [(k, v)]

/-- The `changedSquares.find(sq => pieceAt(sq) != null && pieceAt(sq).type
== Pawn) != null` test of `move()` (evaluated on the post-move board). -/
def pawnOnAny (g : Grid) : List Square → Except Grid Bool
  | [] => .ok false
  | sq :: rest => do
    let p ← pieceAtE g sq.x sq.y
    match p with
    | some q =>
      if q.type = ChessPieceType.Pawn then .ok true else pawnOnAny g rest
    | none => pawnOnAny g rest

/-- The threefold-repetition bookkeeping at the end of `move()`: look up
the fresh `boardStateHash()` in `history`, bump (or create) its count, and
set the sticky `threefoldRepetition` flag when the count reaches 3. -/
def histUpdate (st : BoardState) : BoardState :=
  let key := boardStateHash st
  if histHas st.history key then
    let newCount := (histGet st.history key).getD 0 + 1
    let h' := histSet st.history key newCount
    if newCount ≥ 3 then { st with history := h', threefoldRepetition := true }
    else { st with history := h' }
  else { st with history := histSet st.history key 1 }

/-- The `move(fromSquare, toSquare, promotion)`.  On success the result is the
updated state together with the JS return value: `some changedSquares` for
the normal paths (the empty list when the move was rejected as illegal) and
`none` for the fifty-move-rule early `return`, which returns `undefined`.
The error value is the board as left at the moment of the throw. -/
def moveE (st : BoardState) (fromSquare toSquare : Square)
    (promotion : Option ChessPieceType) :
    Except Grid (BoardState × Option (List Square)) := do
  let xFrom := fromSquare.x
  let yFrom := fromSquare.y
  let xTo := toSquare.x
  let yTo := toSquare.y
  let numPiecesBefore := countPieces st.board
  let leg ← isLegalB st xFrom yFrom xTo yTo
  if leg = false then .ok (st, some [])
  else do
    let movedPiece? ← pieceAtE st.board xFrom yFrom
    let capturedPiece ← pieceAtE st.board xTo yTo
    let gA ← setAtE st.board xTo yTo movedPiece?
    let gB ← setAtE gA xFrom yFrom none
    let changed0 := [Square.mk xFrom yFrom, Square.mk xTo yTo]
    match movedPiece? with
    | none =>
      -- `movedPiece.is(...)` on `null` throws a `TypeError`; the piece
      -- relocation just above has already happened.
      .error gB
    | some movedPiece => do
      let (gC, changed1) ←
        if movedPiece.is Colour.White ChessPieceType.King ∧ xFrom - xTo = 2 then do
          let g' ← setAtE gB 3 yTo (some ⟨ChessPieceType.Rook, Colour.White⟩)
          let g'' ← setAtE g' 0 yTo none
          pure (g'', changed0 ++ [Square.mk 3 yTo, Square.mk 0 yTo])
        else pure (gB, changed0)
      let (gD, changed2) ←
        if movedPiece.is Colour.White ChessPieceType.King ∧ xTo - xFrom = 2 then do
          let g' ← setAtE gC 5 yTo (some ⟨ChessPieceType.Rook, Colour.White⟩)
          let g'' ← setAtE g' 7 yTo none
          pure (g'', changed1 ++ [Square.mk 5 yTo, Square.mk 7 yTo])
        else pure (gC, changed1)
      let (gE, changed3) ←
        if movedPiece.is Colour.Black ChessPieceType.King ∧ xFrom - xTo = 2 then do
          let g' ← setAtE gD 3 yTo (some ⟨ChessPieceType.Rook, Colour.Black⟩)
          let g'' ← setAtE g' 0 yTo none
          pure (g'', changed2 ++ [Square.mk 3 yTo, Square.mk 0 yTo])
        else pure (gD, changed2)
      let (gF, changed4) ←
        if movedPiece.is Colour.Black ChessPieceType.King ∧ xTo - xFrom = 2 then do
          let g' ← setAtE gE 5 yTo (some ⟨ChessPieceType.Rook, Colour.Black⟩)
          let g'' ← setAtE g' 7 yTo none
          pure (g'', changed3 ++ [Square.mk 5 yTo, Square.mk 7 yTo])
        else pure (gE, changed3)
      let (wcs1, wcl1) :=
        if movedPiece.is Colour.White ChessPieceType.King then (false, false)
        else (st.whiteCastleShort, st.whiteCastleLong)
      let wcs2 ←
        if wcs1 = true ∧ movedPiece.is Colour.White ChessPieceType.Rook ∧ xFrom = 0 then do
          let c ← pieceAtE gF 7 0
          pure (if c = none then false else wcs1)
        else pure wcs1
      let wcl2 ←
        if wcl1 = true ∧ movedPiece.is Colour.White ChessPieceType.Rook ∧ xFrom = 7 then do
          let c ← pieceAtE gF 0 0
          pure (if c = none then false else wcl1)
        else pure wcl1
      let (bcs1, bcl1) :=
        if movedPiece.is Colour.Black ChessPieceType.King then (false, false)
        else (st.blackCastleShort, st.blackCastleLong)
      let bcs2 ←
        if bcs1 = true ∧ movedPiece.is Colour.Black ChessPieceType.Rook ∧ xFrom = 0 then do
          let c ← pieceAtE gF 0 7
          pure (if c = none then false else bcs1)
        else pure bcs1
      let bcl2 ←
        if bcl1 = true ∧ movedPiece.is Colour.Black ChessPieceType.Rook ∧ xFrom = 7 then do
          let c ← pieceAtE gF 7 7
          pure (if c = none then false else bcl1)
        else pure bcl1
      let (wep1, bep1) :=
        if st.turn = Colour.White then (List.replicate 8 false, st.blackEnPassant)
        else (st.whiteEnPassant, List.replicate 8 false)
      let wep2 :=
        if movedPiece.is Colour.White ChessPieceType.Pawn ∧ yTo - yFrom = 2 then
          epSet wep1 xFrom true
        else wep1
      let bep2 :=
        if movedPiece.is Colour.Black ChessPieceType.Pawn ∧ yFrom - yTo = 2 then
          epSet bep1 xFrom true
        else bep1
      let (gG, changed5) ←
        if movedPiece.is Colour.White ChessPieceType.Pawn ∧ epGet bep2 xTo = true ∧
            capturedPiece = none ∧ xTo ≠ xFrom then do
          let g' ← setAtE gF xTo yFrom none
          pure (g', changed4 ++ [Square.mk xTo yFrom])
        else pure (gF, changed4)
      let (gH, changed6) ←
        if movedPiece.is Colour.Black ChessPieceType.Pawn ∧ epGet wep2 xTo = true ∧
            capturedPiece = none ∧ xTo ≠ xFrom then do
          let g' ← setAtE gG xTo yFrom none
          pure (g', changed5 ++ [Square.mk xTo yFrom])
        else pure (gG, changed5)
      let gI ←
        if movedPiece.is Colour.White ChessPieceType.Pawn ∧ yTo = 7 then
          match promotion with
          | some ChessPieceType.Queen => setAtE gH xTo yTo (some ⟨ChessPieceType.Queen, Colour.White⟩)
          | some ChessPieceType.Rook => setAtE gH xTo yTo (some ⟨ChessPieceType.Rook, Colour.White⟩)
          | some ChessPieceType.Bishop => setAtE gH xTo yTo (some ⟨ChessPieceType.Bishop, Colour.White⟩)
          | some ChessPieceType.Knight => setAtE gH xTo yTo (some ⟨ChessPieceType.Knight, Colour.White⟩)
          | _ => pure gH
        else pure gH
      let gJ ←
        if movedPiece.is Colour.Black ChessPieceType.Pawn ∧ yTo = 0 then
          match promotion with
          | some ChessPieceType.Queen => setAtE gI xTo yTo (some ⟨ChessPieceType.Queen, Colour.Black⟩)
          | some ChessPieceType.Rook => setAtE gI xTo yTo (some ⟨ChessPieceType.Rook, Colour.Black⟩)
          | some ChessPieceType.Bishop => setAtE gI xTo yTo (some ⟨ChessPieceType.Bishop, Colour.Black⟩)
          | some ChessPieceType.Knight => setAtE gI xTo yTo (some ⟨ChessPieceType.Knight, Colour.Black⟩)
          | _ => pure gI
        else pure gI
      let newTurn := if st.turn = Colour.White then Colour.Black else Colour.White
      let st1 : BoardState :=
        { st with
          board := gJ
          whiteCastleShort := wcs2
          whiteCastleLong := wcl2
          blackCastleShort := bcs2
          blackCastleLong := bcl2
          whiteEnPassant := wep2
          blackEnPassant := bep2
          turn := newTurn
          turnNumber := st.turnNumber + 1
          moves := st.moves ++ [⟨Square.mk xFrom yFrom, Square.mk xTo yTo, promotion⟩] }
      let numPiecesAfter := countPieces gJ
      let pawnMove ← pawnOnAny gJ changed6
      if numPiecesBefore = numPiecesAfter ∧ pawnMove = false then
        if st.fiftyMoveRule + 1 ≥ 100 then
          .ok ({ st1 with
                 fiftyMoveRule := st.fiftyMoveRule + 1
                 fiftyMoveRuleReached := true }, none)
        else
          let st2 := { st1 with fiftyMoveRule := st.fiftyMoveRule + 1 }
          .ok (histUpdate st2, some changed6)
      else
        let st2 := { st1 with fiftyMoveRule := 0 }
        .ok (histUpdate st2, some changed6)

/-- The `decodeCoord`: human readable chess coordinate to square indices. -/
def decodeCoord (coord : String) : Int × Int :=
  ((((coord.data.getD 0 'a').toNat : Int)) - 97,
    (((coord.data.getD 1 '1').toNat : Int)) - 49)

/-- The `ChessBoard.set(coord, pieceType, colour)`. -/
def setPiece (g : Grid) (coord : String) (t : ChessPieceType) (c : Colour) : Grid :=
  let xy := decodeCoord coord
  setCell g xy.1 xy.2 (some ⟨t, c⟩)

/-- The grid built by `ChessBoard.empty()`: 8 rows of 8 `null`s. -/
def emptyBoard : Grid := List.replicate 8 (List.replicate 8 none)

/-- The grid built by `ChessBoard.generateDefault()`. -/
def startBoard : Grid :=
  let g := emptyBoard
  let g := setPiece g "a1" ChessPieceType.Rook Colour.White
  let g := setPiece g "b1" ChessPieceType.Knight Colour.White
  let g := setPiece g "c1" ChessPieceType.Bishop Colour.White
  let g := setPiece g "d1" ChessPieceType.Queen Colour.White
  let g := setPiece g "e1" ChessPieceType.King Colour.White
  let g := setPiece g "f1" ChessPieceType.Bishop Colour.White
  let g := setPiece g "g1" ChessPieceType.Knight Colour.White
  let g := setPiece g "h1" ChessPieceType.Rook Colour.White
  let g := ["a2", "b2", "c2", "d2", "e2", "f2", "g2", "h2"].foldl
    (fun g c => setPiece g c ChessPieceType.Pawn Colour.White) g
  let g := ["a7", "b7", "c7", "d7", "e7", "f7", "g7", "h7"].foldl
    (fun g c => setPiece g c ChessPieceType.Pawn Colour.Black) g
  let g := setPiece g "a8" ChessPieceType.Rook Colour.Black
  let g := setPiece g "b8" ChessPieceType.Knight Colour.Black
  let g := setPiece g "c8" ChessPieceType.Bishop Colour.Black
  let g := setPiece g "d8" ChessPieceType.Queen Colour.Black
  let g := setPiece g "e8" ChessPieceType.King Colour.Black
  let g := setPiece g "f8" ChessPieceType.Bishop Colour.Black
  let g := setPiece g "g8" ChessPieceType.Knight Colour.Black
  let g := setPiece g "h8" ChessPieceType.Rook Colour.Black
  g

/-- The state produced by `ChessBoard.generateDefault()` (constructor
defaults plus the standard starting grid). -/
def startState : BoardState :=
  { board := startBoard
    whiteCastleShort := true
    whiteCastleLong := true
    blackCastleShort := true
    blackCastleLong := true
    whiteEnPassant := List.replicate 8 false
    blackEnPassant := List.replicate 8 false
    turn := Colour.White
    turnNumber := 0
    moves := []
    fiftyMoveRule := 0
    fiftyMoveRuleReached := false
    history := []
    threefoldRepetition := false }

/-- Apply a sequence of `move()` calls (ignoring their return values, as
the driver does), threading the state. -/
def applyMovesE (st : BoardState) :
    List (Square × Square × Option ChessPieceType) → Except Grid BoardState
  | [] => .ok st
  | m :: rest => do
    let r ← moveE st m.1 m.2.1 m.2.2
    applyMovesE r.1 rest

instance {ε α : Type} [DecidableEq ε] [DecidableEq α] :
    DecidableEq (Except ε α) := fun a b =>
  match a, b with
  | .ok x, .ok y =>
    if h : x = y then isTrue (by rw [h])
    else isFalse (fun hc => by cases hc; exact h rfl)
  | .error x, .error y =>
    if h : x = y then isTrue (by rw [h])
    else isFalse (fun hc => by cases hc; exact h rfl)
  | .ok _, .error _ => isFalse (fun hc => Except.noConfusion hc)
  | .error _, .ok _ => isFalse (fun hc => Except.noConfusion hc)

/-- Extract the state from a successful `applyMovesE` run (the fallback is
irrelevant: every use is paired with a proof that the run succeeded). -/
def stOf (e : Except Grid BoardState) : BoardState :=
  match e with
  | .ok s => s
  | .error _ => startState

/-- Extract the error payload of an `isLegal` run (the fallback is
irrelevant: every use is paired with a proof that the run threw). -/
def errGridOf (e : Except Grid (Bool × Grid)) : Grid :=
  match e with
  | .error g => g
  | .ok p => p.2

/-- Extract the result of a successful `move()` call. -/
def moveResOf (e : Except Grid (BoardState × Option (List Square))) :
    BoardState × Option (List Square) :=
  match e with
  | .ok r => r
  | .error _ => (startState, none)

/-- Extract a successful move-list result. -/
def listOf (e : Except Grid (List Square)) : List Square :=
  match e with
  | .ok l => l
  | .error _ => []

/-- Measurement harness for the opening-move-count claim: the total number
of destinations in `possibleMoves(x, y, true)` over all white pieces whose
type satisfies `keep`. -/
def legalCountScan (st : BoardState) (keep : ChessPieceType → Bool) :
    List (Int × Int) → Except Grid Nat
  | [] => .ok 0
  | (x, y) :: rest => do
    match getCell st.board x y with
    | some p =>
      if p.colour = Colour.White ∧ keep p.type = true then do
        let ms ← possibleMoves st x y true
        let n ← legalCountScan st keep rest
        .ok (ms.length + n)
      else legalCountScan st keep rest
    | none => legalCountScan st keep rest

/-- Legal-move count for White, restricted to piece types satisfying
`keep`. -/
def whiteLegalMoveCount (st : BoardState) (keep : ChessPieceType → Bool) :
    Except Grid Nat :=
  legalCountScan st keep coords64

/-- Whether a scan cell holds exactly the piece `p`. -/
def cellIs (g : Grid) (p : ChessPiece) : (Int × Int) → Bool :=
  fun c => getCell g c.1 c.2 == some p

/-- Whether a scan cell holds a piece of colour `col`. -/
def cellColour (g : Grid) (col : Colour) : (Int × Int) → Bool :=
  fun c =>
    match getCell g c.1 c.2 with
    | some q => q.colour == col
    | none => false

/-- Number of cells of the board holding exactly the piece `⟨t, col⟩`. -/
def pieceCount (g : Grid) (col : Colour) (t : ChessPieceType) : Nat :=
  coords64.countP (cellIs g ⟨t, col⟩)

/-- Number of cells of the board holding a piece of colour `col`. -/
def colourCount (g : Grid) (col : Colour) : Nat :=
  coords64.countP (cellColour g col)

/-- The en-passant scenario of the spec: `e2e4`, `h7h6`, `e4e5`, `d7d5`. -/
def epSeq : List (Square × Square × Option ChessPieceType) :=
  [(⟨4, 1⟩, ⟨4, 3⟩, none), (⟨7, 6⟩, ⟨7, 5⟩, none),
    (⟨4, 3⟩, ⟨4, 4⟩, none), (⟨3, 6⟩, ⟨3, 4⟩, none)]

/-- The position after `e2e4 h7h6 e4e5 d7d5`. -/
def epSt : BoardState := stOf (applyMovesE startState epSeq)

/-- The move list generated for the white pawn on e5 in that position. -/
def epGen : List Square := listOf (possibleMoves epSt 4 4 true)

/-- The result of playing `e5d6` (the en-passant capture) there. -/
def epRes : BoardState × Option (List Square) :=
  moveResOf (moveE epSt ⟨4, 4⟩ ⟨3, 5⟩ none)

/-- Rook-move scenario for the castling-rights claim: `a2a4`, `a7a6`, then
the white a-rook lifts `a1a3`. -/
def c2Seq : List (Square × Square × Option ChessPieceType) :=
  [(⟨0, 1⟩, ⟨0, 3⟩, none), (⟨0, 6⟩, ⟨0, 5⟩, none), (⟨0, 0⟩, ⟨0, 2⟩, none)]

/-- The position after `a2a4 a7a6 a1a3`. -/
def c2St : BoardState := stOf (applyMovesE startState c2Seq)

/-- Four plies moving both b-knights out and back: returns to the starting
position. -/
def danceMoves : List (Square × Square × Option ChessPieceType) :=
  [(⟨1, 0⟩, ⟨2, 2⟩, none), (⟨1, 7⟩, ⟨2, 5⟩, none),
    (⟨2, 2⟩, ⟨1, 0⟩, none), (⟨2, 5⟩, ⟨1, 7⟩, none)]

/-- The position after one knight round trip (= the starting position,
occurring for the second time). -/
def d4St : BoardState := stOf (applyMovesE startState danceMoves)

/-- The position after two knight round trips (= the starting position,
occurring for the third time). -/
def d8St : BoardState := stOf (applyMovesE startState (danceMoves ++ danceMoves))

/-- A reachable state with a black pawn on rank 1 (y = 0): `h2h3`, then the
executor accepts `a7a1` — `move()` validates only king safety, not the
piece's movement pattern — and the unpromoted pawn (no promotion selector
was supplied) stays a pawn on the back rank. -/
def c1Seq : List (Square × Square × Option ChessPieceType) :=
  [(⟨7, 1⟩, ⟨7, 2⟩, none), (⟨0, 6⟩, ⟨0, 0⟩, none)]

/-- The state after `c1Seq`. -/
def c1St : BoardState := stOf (applyMovesE startState c1Seq)

/-- The corrupted board carried by the exception that `isLegal(e2, e3)`
raises in `c1St` (the white-in-check scan reads `board[-1]` for the black
pawn on y = 0 after `pretend` has run). -/
def c1ErrGrid : Grid := errGridOf (isLegalE c1St 4 1 4 2)

/-- A board holding only a black king on e8 — no white king. -/
def noWKGrid : Grid := setPiece emptyBoard "e8" ChessPieceType.King Colour.Black

/-- A state on `noWKGrid`, white to move. -/
def noWKState : BoardState := { startState with board := noWKGrid }

/-- A board holding only a white king on e1 — no black king. -/
def noBKGrid : Grid := setPiece emptyBoard "e1" ChessPieceType.King Colour.White

/-- A state on `noBKGrid`. -/
def noBKState : BoardState := { startState with board := noBKGrid }

/-- A state on the fully empty board. -/
def emptyState : BoardState := { startState with board := emptyBoard }

/-- Kings on e1/e8 plus a white knight on b1, with the halfmove clock at
99: any quiet move triggers the fifty-move rule. -/
def c3Grid : Grid :=
  setPiece (setPiece (setPiece emptyBoard "e1" ChessPieceType.King Colour.White)
    "e8" ChessPieceType.King Colour.Black) "b1" ChessPieceType.Knight Colour.White

/-- The fifty-move-trigger state. -/
def c3State : BoardState := { startState with board := c3Grid, fiftyMoveRule := 99 }

/-- The result of the quiet knight move `b1c3` in `c3State`. -/
def c3Res : BoardState × Option (List Square) :=
  moveResOf (moveE c3State ⟨1, 0⟩ ⟨2, 2⟩ none)

/-- White king e1 and queen e2, black rook e8 and king a8: the queen is
pinned, so `e2d3` is rejected by the legality filter. -/
def pinGrid : Grid :=
  setPiece (setPiece (setPiece (setPiece emptyBoard
    "e1" ChessPieceType.King Colour.White)
    "e2" ChessPieceType.Queen Colour.White)
    "e8" ChessPieceType.Rook Colour.Black)
    "a8" ChessPieceType.King Colour.Black

/-- The pinned-queen state. -/
def pinState : BoardState := { startState with board := pinGrid }

/-- Two bare kings on e1/e8. -/
def twoKingsGrid : Grid :=
  setPiece (setPiece emptyBoard "e1" ChessPieceType.King Colour.White)
    "e8" ChessPieceType.King Colour.Black

/-- Two bare kings, white to move. -/
def tkW : BoardState := { startState with board := twoKingsGrid }

/-- Two bare kings, black to move. -/
def tkB : BoardState := { startState with board := twoKingsGrid, turn := Colour.Black }

/-- The colour of the other side. -/
def otherColour : Colour → Colour
  | Colour.White => Colour.Black
  | Colour.Black => Colour.White

/-- Claim side (insufficient material): some pawn, queen or rook remains on
the board. -/
def anyPQRCell (g : Grid) : Prop :=
  ∃ c ∈ coords64, ∃ p, getCell g c.1 c.2 = some p ∧ isPQR p.type

instance (g : Grid) : Decidable (anyPQRCell g) := by
  unfold anyPQRCell; infer_instance

/-- Claim side: the side has nothing on the board beyond its king ("only
its bare king"). -/
def onlyBareKing (g : Grid) (col : Colour) : Prop :=
  ∀ c ∈ coords64, ∀ p, getCell g c.1 c.2 = some p → p.colour = col →
    p.type = ChessPieceType.King

instance (g : Grid) (col : Colour) : Decidable (onlyBareKing g col) := by
  unfold onlyBareKing; infer_instance

/-- Claim side: a side is individually insufficient — no minor pieces,
exactly one knight and no bishop, exactly one bishop and no knight, or
exactly two knights and no bishops when the opponent has only its bare
king. -/
def sideInsufficient (g : Grid) (col : Colour) : Prop :=
  (pieceCount g col ChessPieceType.Knight = 0 ∧ pieceCount g col ChessPieceType.Bishop = 0) ∨
  (pieceCount g col ChessPieceType.Knight = 1 ∧ pieceCount g col ChessPieceType.Bishop = 0) ∨
  (pieceCount g col ChessPieceType.Knight = 0 ∧ pieceCount g col ChessPieceType.Bishop = 1) ∨
  (pieceCount g col ChessPieceType.Knight = 2 ∧ pieceCount g col ChessPieceType.Bishop = 0 ∧
    onlyBareKing g (otherColour col))

instance (g : Grid) (col : Colour) : Decidable (sideInsufficient g col) := by
  unfold sideInsufficient; infer_instance

/-- The insufficient-material predicate as the claim states it: false
whenever any pawn, queen or rook remains; otherwise true iff both sides are
individually insufficient. -/
def claimInsufficientMaterial (g : Grid) : Prop :=
  ¬ anyPQRCell g ∧ sideInsufficient g Colour.White ∧ sideInsufficient g Colour.Black

instance (g : Grid) : Decidable (claimInsufficientMaterial g) := by
  unfold claimInsufficientMaterial; infer_instance

end HChess

namespace HChess

set_option maxHeartbeats 16000000
set_option maxRecDepth 16000

/-- C2: the code does not clear the castling right belonging to a rook
that leaves its home square.  From the standard start, after `a2a4 a7a6
a1a3` the white a-rook has left a1 (a1 is empty, the rook stands on a3),
yet `whiteCastleLong` — and `whiteCastleShort` — are still `true`: the
source's long-right clause requires `xFrom == 7`, and its short-right
clause fires for `xFrom == 0` only when h1 is empty. -/
theorem rook_move_keeps_castling_rights :
    applyMovesE startState c2Seq = .ok c2St ∧
    getCell startState.board 0 0 = some ⟨ChessPieceType.Rook, Colour.White⟩ ∧
    getCell c2St.board 0 0 = none ∧
    getCell c2St.board 0 2 = some ⟨ChessPieceType.Rook, Colour.White⟩ ∧
    c2St.whiteCastleLong = true ∧
    c2St.whiteCastleShort = true := by decide

/-- C3: a legal move that raises the halfmove clock to 100 makes `move()`
take the fifty-move early `return`, which returns `undefined` (`none`)
instead of the changed-square sequence; an illegal move (the pinned queen
move `e2d3` in `pinState`) is a no-op returning the empty sequence. -/
theorem move_fifty_trigger_returns_no_squares :
    isLegalB c3State 1 0 2 2 = .ok true ∧
    moveE c3State ⟨1, 0⟩ ⟨2, 2⟩ none = .ok c3Res ∧
    c3Res.2 = none ∧
    c3Res.1.fiftyMoveRuleReached = true ∧
    c3Res.1.fiftyMoveRule = 100 ∧
    isLegalB pinState 4 1 3 2 = .ok false ∧
    moveE pinState ⟨4, 1⟩ ⟨3, 2⟩ none = .ok (pinState, some []) := by decide

/-- C4: after `b1c3 b8c6 c3b1 c6b8` played twice from the standard start,
the position (grid, rights, en-passant state, side to move) equals the
starting position both after ply 4 and after ply 8 — i.e. the starting
position has occurred three times — yet `threefoldRepetition` is still
`false`: the history map never counts the game's initial position. -/
theorem threefold_flag_false_on_third_occurrence :
    applyMovesE startState danceMoves = .ok d4St ∧
    applyMovesE startState (danceMoves ++ danceMoves) = .ok d8St ∧
    boardStateHash d4St = boardStateHash startState ∧
    boardStateHash d8St = boardStateHash startState ∧
    d8St.threefoldRepetition = false := by decide

/-- C5: from the standard start, after `e2e4 h7h6 e4e5 d7d5` the generator
offers the white e5-pawn the en-passant capture `e5d6`, and applying
`e5d6` removes the black pawn from d5. -/
theorem en_passant_sequence_works :
    applyMovesE startState epSeq = .ok epSt ∧
    possibleMoves epSt 4 4 true = .ok epGen ∧
    Square.mk 3 5 ∈ epGen ∧
    getCell epSt.board 3 4 = some ⟨ChessPieceType.Pawn, Colour.Black⟩ ∧
    moveE epSt ⟨4, 4⟩ ⟨3, 5⟩ none = .ok epRes ∧
    getCell epRes.1.board 3 4 = none ∧
    getCell epRes.1.board 3 5 = some ⟨ChessPieceType.Pawn, Colour.White⟩ := by decide

/-- C6: on the standard starting position, White's pieces have exactly 20
legal moves: 16 pawn single/double pushes and 4 knight moves. -/
theorem start_position_has_20_white_moves :
    whiteLegalMoveCount startState (fun _ => true) = .ok 20 ∧
    whiteLegalMoveCount startState (fun t => t == ChessPieceType.Pawn) = .ok 16 ∧
    whiteLegalMoveCount startState (fun t => t == ChessPieceType.Knight) = .ok 4 := by decide

/-- C1 (counterexample): a reachable state (built by the engine's own
`move()` from the standard start) in which `isLegal` raises — the
white-in-check scan reads row `-1` for the unpromoted black pawn sitting
on y = 0 — and the speculative relocation is NOT reverted: the exception's
board differs from the pre-call board. -/
theorem isLegal_attack_error_corrupts_board :
    applyMovesE startState c1Seq = .ok c1St ∧
    getCell c1St.board 0 0 = some ⟨ChessPieceType.Pawn, Colour.Black⟩ ∧
    isLegalE c1St 4 1 4 2 = .error c1ErrGrid ∧
    c1ErrGrid ≠ c1St.board := by decide

/-- C8 (counterexample): on a board with no white king (only a black king
on e8), `whiteInCheck()` does not abort — it completes and returns the
boolean `false`. -/
theorem whiteInCheck_no_king_returns_false_value :
    pieceCount noWKState.board Colour.White ChessPieceType.King = 0 ∧
    whiteInCheckE noWKState = .ok false := by decide


/-- C10: for every square with coordinates x, y in [0,8), parsing the
two-character rendering recovers the square. -/
theorem square_string_roundtrip (x y : Int)
    (hx0 : 0 ≤ x) (hx8 : x < 8) (hy0 : 0 ≤ y) (hy8 : y < 8) :
    Square.fromStr (Square.toStr ⟨x, y⟩) = ⟨x, y⟩ := by
  interval_cases x <;> interval_cases y <;> decide

/-- C10 witness. -/
theorem square_string_roundtrip_witness :
    (0 ≤ (3 : Int) ∧ (3 : Int) < 8 ∧ 0 ≤ (5 : Int) ∧ (5 : Int) < 8) ∧
    Square.fromStr (Square.toStr ⟨3, 5⟩) = ⟨3, 5⟩ :=
  ⟨by decide, square_string_roundtrip 3 5 (by decide) (by decide) (by decide) (by decide)⟩

end HChess

namespace HChess

/-- The `Except.bind` on a success, as produced by `do` notation. -/
theorem exBind_ok {ε α β : Type} (a : α) (f : α → Except ε β) :
    (Except.ok a : Except ε α) >>= f = f a := rfl

/-- The `Except.bind` on an error. -/
theorem exBind_err {ε α β : Type} (e : ε) (f : α → Except ε β) :
    (Except.error e : Except ε α) >>= f = Except.error e := rfl

/-- Setting an index of a list to its current value changes nothing. -/
theorem list_set_self {α : Type} (l : List α) (n : Nat) (h : n < l.length) :
    l.set n l[n] = l := by
  apply List.ext_getElem?
  intro m
  by_cases hm : n = m
  · subst hm; simp [List.getElem?_set_self h]
  · simp [List.getElem?_set_ne hm]

/-- The `setCell` unfolded on an existing row. -/
theorem setCell_eq (g : Grid) (x y : Int) (p : Option ChessPiece)
    (hs : 0 ≤ x ∧ 0 ≤ y) (row : List (Option ChessPiece))
    (hrow : g[y.toNat]? = some row) :
    setCell g x y p = g.set y.toNat (row.set x.toNat p) := by
  unfold setCell
  rw [if_pos hs, List.get?_eq_getElem?, hrow]

/-- The `setCell` is the identity when the coordinates are negative. -/
theorem setCell_neg (g : Grid) (x y : Int) (p : Option ChessPiece)
    (hs : ¬(0 ≤ x ∧ 0 ≤ y)) : setCell g x y p = g := by
  unfold setCell
  rw [if_neg hs]

/-- The `setCell` is the identity when the row is missing. -/
theorem setCell_none (g : Grid) (x y : Int) (p : Option ChessPiece)
    (hs : 0 ≤ x ∧ 0 ≤ y) (hrow : g[y.toNat]? = none) : setCell g x y p = g := by
  unfold setCell
  rw [if_pos hs, List.get?_eq_getElem?, hrow]

/-- The `getCell` unfolded on an existing row. -/
theorem getCell_eq (g : Grid) (x y : Int)
    (hs : 0 ≤ x ∧ 0 ≤ y) (row : List (Option ChessPiece))
    (hrow : g[y.toNat]? = some row) :
    getCell g x y = (row[x.toNat]?).getD none := by
  unfold getCell
  rw [if_pos hs, List.get?_eq_getElem?, hrow]
  simp

/-- A cell read on a well-formed grid succeeds. -/
theorem pieceAtE_ok (g : Grid) (x y : Int) (hlen : g.length = 8) (hy : inB y) :
    pieceAtE g x y = .ok (getCell g x y) := by
  obtain ⟨hy0, hy8⟩ := hy
  unfold pieceAtE
  rw [if_pos ⟨hy0, by omega⟩]

/-- A cell write on a well-formed grid succeeds. -/
theorem setAtE_ok (g : Grid) (x y : Int) (p : Option ChessPiece)
    (hlen : g.length = 8) (hy : inB y) :
    setAtE g x y p = .ok (setCell g x y p) := by
  obtain ⟨hy0, hy8⟩ := hy
  unfold setAtE
  rw [if_pos ⟨hy0, by omega⟩]

/-- The `setCell` preserves the number of rows. -/
theorem setCell_length (g : Grid) (x y : Int) (p : Option ChessPiece) :
    (setCell g x y p).length = g.length := by
  unfold setCell
  split
  · split
    · simp
    · rfl
  · rfl

/-- The `setCell` preserves well-formedness. -/
theorem okGrid_setCell (g : Grid) (x y : Int) (p : Option ChessPiece)
    (hg : okGrid g) : okGrid (setCell g x y p) := by
  obtain ⟨hl, hrows⟩ := hg
  by_cases hs : 0 ≤ x ∧ 0 ≤ y
  · cases hrow : g[y.toNat]? with
    | none => rw [setCell_none g x y p hs hrow]; exact ⟨hl, hrows⟩
    | some row =>
      rw [setCell_eq g x y p hs row hrow]
      refine ⟨by simp [hl], ?_⟩
      intro r hr
      rcases List.mem_or_eq_of_mem_set hr with h | h
      · exact hrows r h
      · subst h
        simp [hrows row (List.getElem?_mem hrow)]
  · rw [setCell_neg g x y p hs]; exact ⟨hl, hrows⟩

/-- Reading back the cell just written. -/
theorem getCell_setCell_same (g : Grid) (x y : Int) (p : Option ChessPiece)
    (hg : okGrid g) (hx : inB x) (hy : inB y) :
    getCell (setCell g x y p) x y = p := by
  obtain ⟨hl, hrows⟩ := hg
  obtain ⟨hx0, hx8⟩ := hx
  obtain ⟨hy0, hy8⟩ := hy
  have hylt : y.toNat < g.length := by omega
  have hrow : g[y.toNat]? = some g[y.toNat] := List.getElem?_eq_getElem hylt
  have hxlt : x.toNat < (g[y.toNat]).length := by
    rw [hrows _ (List.getElem?_mem hrow)]; omega
  rw [setCell_eq g x y p ⟨hx0, hy0⟩ _ hrow]
  have hrow' : (g.set y.toNat ((g[y.toNat]).set x.toNat p))[y.toNat]? =
      some ((g[y.toNat]).set x.toNat p) := List.getElem?_set_self hylt
  rw [getCell_eq _ x y ⟨hx0, hy0⟩ _ hrow']
  rw [List.getElem?_set_self (by simpa using hxlt)]
  rfl

/-- Overwriting the same cell twice keeps only the second write. -/
theorem setCell_setCell (g : Grid) (x y : Int) (p q : Option ChessPiece) :
    setCell (setCell g x y p) x y q = setCell g x y q := by
  by_cases hs : 0 ≤ x ∧ 0 ≤ y
  · cases hrow : g[y.toNat]? with
    | none => rw [setCell_none g x y p hs hrow]
    | some row =>
      have hylt : y.toNat < g.length := (List.getElem?_eq_some_iff.mp hrow).1
      rw [setCell_eq g x y p hs row hrow]
      have hrow' : (g.set y.toNat (row.set x.toNat p))[y.toNat]? =
          some (row.set x.toNat p) := List.getElem?_set_self hylt
      rw [setCell_eq _ x y q hs _ hrow', setCell_eq g x y q hs row hrow]
      rw [List.set_set, List.set_set]
  · rw [setCell_neg g x y p hs, setCell_neg _ x y q hs]


/-- Writes to two different cells commute. -/
theorem setCell_comm (g : Grid) (x1 y1 x2 y2 : Int) (p q : Option ChessPiece)
    (hg : okGrid g) (hx1 : inB x1) (hy1 : inB y1) (hx2 : inB x2) (hy2 : inB y2)
    (hne : x1 ≠ x2 ∨ y1 ≠ y2) :
    setCell (setCell g x1 y1 p) x2 y2 q = setCell (setCell g x2 y2 q) x1 y1 p := by
  obtain ⟨hl, hrows⟩ := hg
  obtain ⟨hx10, hx18⟩ := hx1
  obtain ⟨hy10, hy18⟩ := hy1
  obtain ⟨hx20, hx28⟩ := hx2
  obtain ⟨hy20, hy28⟩ := hy2
  have hy1lt : y1.toNat < g.length := by omega
  have hy2lt : y2.toNat < g.length := by omega
  have hrow1 : g[y1.toNat]? = some g[y1.toNat] := List.getElem?_eq_getElem hy1lt
  have hrow2 : g[y2.toNat]? = some g[y2.toNat] := List.getElem?_eq_getElem hy2lt
  by_cases hyy : y1 = y2
  · subst hyy
    have hxx : x1.toNat ≠ x2.toNat := by
      rcases hne with h | h
      · omega
      · exact absurd rfl h
    rw [setCell_eq g x1 y1 p ⟨hx10, hy10⟩ _ hrow1,
      setCell_eq g x2 y1 q ⟨hx20, hy10⟩ _ hrow1]
    rw [setCell_eq _ x2 y1 q ⟨hx20, hy10⟩ _ (List.getElem?_set_self hy1lt),
      setCell_eq _ x1 y1 p ⟨hx10, hy10⟩ _ (List.getElem?_set_self hy1lt)]
    rw [List.set_set, List.set_set, List.set_comm _ _ _ hxx]
  · have hyy' : y1.toNat ≠ y2.toNat := by omega
    rw [setCell_eq g x1 y1 p ⟨hx10, hy10⟩ _ hrow1,
      setCell_eq g x2 y2 q ⟨hx20, hy20⟩ _ hrow2]
    have h12 : (g.set y1.toNat ((g[y1.toNat]).set x1.toNat p))[y2.toNat]? =
        some g[y2.toNat] := by
      rw [List.getElem?_set_ne hyy', hrow2]
    have h21 : (g.set y2.toNat ((g[y2.toNat]).set x2.toNat q))[y1.toNat]? =
        some g[y1.toNat] := by
      rw [List.getElem?_set_ne (Ne.symm hyy'), hrow1]
    rw [setCell_eq _ x2 y2 q ⟨hx20, hy20⟩ _ h12,
      setCell_eq _ x1 y1 p ⟨hx10, hy10⟩ _ h21]
    exact List.set_comm _ _ _ hyy'

/-- Writing back the value just read changes nothing. -/
theorem setCell_getCell_self (g : Grid) (x y : Int)
    (hg : okGrid g) (hx : inB x) (hy : inB y) :
    setCell g x y (getCell g x y) = g := by
  obtain ⟨hl, hrows⟩ := hg
  obtain ⟨hx0, hx8⟩ := hx
  obtain ⟨hy0, hy8⟩ := hy
  have hylt : y.toNat < g.length := by omega
  have hrow : g[y.toNat]? = some g[y.toNat] := List.getElem?_eq_getElem hylt
  have hxlt : x.toNat < (g[y.toNat]).length := by
    rw [hrows _ (List.getElem?_mem hrow)]; omega
  rw [getCell_eq g x y ⟨hx0, hy0⟩ _ hrow, setCell_eq g x y _ ⟨hx0, hy0⟩ _ hrow]
  rw [List.getElem?_eq_getElem hxlt]
  simp only [Option.getD_some]
  rw [list_set_self _ _ hxlt, list_set_self _ _ hylt]


/-- Destructuring a successful `Except` bind. -/
theorem exBind_eq_ok {ε α β : Type} {e : Except ε α} {f : α → Except ε β} {v : β}
    (h : e >>= f = .ok v) : ∃ a, e = .ok a ∧ f a = .ok v := by
  cases e with
  | ok a => exact ⟨a, rfl, h⟩
  | error err => simp [exBind_err] at h

/-- C1 (amended): whenever the attack check inside `isLegal` completes
without raising, `isLegal` returns the board exactly as it was before the
call — the speculative apply/revert round-trips exactly, captured pieces
included. -/
theorem isLegal_restores_on_success (st : BoardState) (xF yF xT yT : Int)
    (hg : okGrid st.board) (hxF : inB xF) (hyF : inB yF) (hxT : inB xT) (hyT : inB yT)
    (b : Bool) (g' : Grid) (h : isLegalE st xF yF xT yT = .ok (b, g')) :
    g' = st.board := by
  have hlen : st.board.length = 8 := hg.1
  unfold isLegalE at h
  obtain ⟨old, hOld, h⟩ := exBind_eq_ok h
  obtain ⟨mv, hMv, h⟩ := exBind_eq_ok h
  obtain ⟨g1, hG1, h⟩ := exBind_eq_ok h
  obtain ⟨g2, hG2, h⟩ := exBind_eq_ok h
  obtain ⟨chk, hChk, h⟩ := exBind_eq_ok h
  obtain ⟨r, hR, h⟩ := exBind_eq_ok h
  obtain ⟨g3, hG3, h⟩ := exBind_eq_ok h
  obtain ⟨g4, hG4, h⟩ := exBind_eq_ok h
  simp only [Except.ok.injEq, Prod.mk.injEq] at h
  obtain ⟨hb, hg4⟩ := h
  rw [pieceAtE_ok st.board xT yT hlen hyT] at hOld
  rw [pieceAtE_ok st.board xF yF hlen hyF] at hMv
  rw [setAtE_ok st.board xF yF none hlen hyF] at hG1
  simp only [Except.ok.injEq] at hOld hMv hG1
  subst hOld hMv hG1
  have hok1 : okGrid (setCell st.board xF yF none) := okGrid_setCell _ _ _ _ hg
  have hlen1 : (setCell st.board xF yF none).length = 8 := by
    rw [setCell_length]; exact hlen
  rw [setAtE_ok _ xT yT _ hlen1 hyT] at hG2
  simp only [Except.ok.injEq] at hG2
  subst hG2
  have hok2 : okGrid (setCell (setCell st.board xF yF none) xT yT
      (getCell st.board xF yF)) := okGrid_setCell _ _ _ _ hok1
  have hlen2 : (setCell (setCell st.board xF yF none) xT yT
      (getCell st.board xF yF)).length = 8 := by
    rw [setCell_length]; exact hlen1
  rw [pieceAtE_ok _ xT yT hlen2 hyT] at hR
  simp only [Except.ok.injEq] at hR
  rw [getCell_setCell_same _ _ _ _ hok1 hxT hyT] at hR
  subst hR
  rw [setAtE_ok _ xF yF _ hlen2 hyF] at hG3
  simp only [Except.ok.injEq] at hG3
  subst hG3
  have hlen3 : (setCell (setCell (setCell st.board xF yF none) xT yT
      (getCell st.board xF yF)) xF yF (getCell st.board xF yF)).length = 8 := by
    rw [setCell_length]; exact hlen2
  rw [setAtE_ok _ xT yT _ hlen3 hyT] at hG4
  simp only [Except.ok.injEq] at hG4
  subst hG4
  subst hg4
  by_cases hft : xF = xT ∧ yF = yT
  · obtain ⟨hfx, hfy⟩ := hft
    subst hfx hfy
    rw [setCell_setCell, setCell_setCell, setCell_setCell,
      setCell_getCell_self _ _ _ hg hxF hyF]
  · have hne : xF ≠ xT ∨ yF ≠ yT := not_and_or.mp hft
    have hne' : xT ≠ xF ∨ yT ≠ yF := by
      rcases hne with hh | hh
      · exact Or.inl (Ne.symm hh)
      · exact Or.inr (Ne.symm hh)
    rw [setCell_comm _ xT yT xF yF _ _ hok1 hxT hyT hxF hyF hne']
    rw [setCell_setCell, setCell_setCell,
      setCell_getCell_self _ _ _ hg hxF hyF,
      setCell_getCell_self _ _ _ hg hxT hyT]

/-- C1 witness for `isLegal_restores_on_success`: the legality probe of
`e2e3` on the standard starting position succeeds and hands back the
starting board unchanged. -/
theorem isLegal_restores_on_success_witness :
    (okGrid startState.board ∧ inB 4 ∧ inB 1 ∧ inB 4 ∧ inB 2 ∧
      isLegalE startState 4 1 4 2 = .ok (true, startState.board)) ∧
    startState.board = startState.board :=
  ⟨⟨by decide, by decide, by decide, by decide, by decide, by decide⟩,
    isLegal_restores_on_success startState 4 1 4 2 (by decide) (by decide)
      (by decide) (by decide) (by decide) true startState.board (by decide)⟩


/-- C9: calling the move generator on coordinates outside `[0,8)` or on an
empty square yields the empty list, with no error, whatever the value of
`checkCheck`. -/
theorem possibleMoves_empty_or_oob (st : BoardState) (x y : Int) (cc : Bool)
    (hg : okGrid st.board)
    (h : ¬(inB x ∧ inB y) ∨ getCell st.board x y = none) :
    possibleMoves st x y cc = .ok [] := by
  simp only [possibleMoves, possibleMovesAux]
  by_cases hb : x ≥ 8 ∨ y ≥ 8 ∨ x < 0 ∨ y < 0
  · rw [if_pos hb]
  · rw [if_neg hb]
    have hx : inB x := by unfold inB; omega
    have hy : inB y := by unfold inB; omega
    have hcell : getCell st.board x y = none := by
      rcases h with h | h
      · exact absurd ⟨hx, hy⟩ h
      · exact h
    simp only [pieceAtE_ok st.board x y hg.1 hy, exBind_ok, hcell]

/-- C9 witness: the generator called at x = 8 on the starting position. -/
theorem possibleMoves_empty_or_oob_witness :
    (okGrid startState.board ∧
      (¬(inB 8 ∧ inB 0) ∨ getCell startState.board 8 0 = none)) ∧
    possibleMoves startState 8 0 true = .ok [] :=
  ⟨⟨by decide, by decide⟩,
    possibleMoves_empty_or_oob startState 8 0 true (by decide) (by decide)⟩

/-- The `ChessPiece.is` names a unique piece. -/
theorem is_iff_eq (p : ChessPiece) (c : Colour) (t : ChessPieceType) :
    p.is c t ↔ p = ⟨t, c⟩ := by
  cases p
  simp [ChessPiece.is, and_comm]

/-- A successful `pieceAtE` returns the total cell read. -/
theorem pieceAtE_ok_val (g : Grid) (x y : Int) (v : Option ChessPiece)
    (h : pieceAtE g x y = .ok v) : v = getCell g x y := by
  unfold pieceAtE at h
  split at h
  · simp only [Except.ok.injEq] at h
    exact h.symm
  · simp at h

/-- The `getCell` is `none` on negative coordinates. -/
theorem getCell_neg (g : Grid) (x y : Int) (hs : ¬(0 ≤ x ∧ 0 ≤ y)) :
    getCell g x y = none := by
  unfold getCell
  rw [if_neg hs]

/-- The `getCell` is `none` when the row is missing. -/
theorem getCell_row_none (g : Grid) (x y : Int) (hs : 0 ≤ x ∧ 0 ≤ y)
    (hrow : g[y.toNat]? = none) : getCell g x y = none := by
  unfold getCell
  rw [if_pos hs, List.get?_eq_getElem?, hrow]

/-- An occupied cell lies inside the 8×8 area. -/
theorem getCell_some_inB (g : Grid) (x y : Int) (p : ChessPiece)
    (hg : okGrid g) (h : getCell g x y = some p) : inB x ∧ inB y := by
  have hgl := hg.1
  by_cases hs : 0 ≤ x ∧ 0 ≤ y
  · cases hrow : g[y.toNat]? with
    | none => rw [getCell_row_none g x y hs hrow] at h; simp at h
    | some row =>
      rw [getCell_eq g x y hs row hrow] at h
      have hylt : y.toNat < g.length := (List.getElem?_eq_some_iff.mp hrow).1
      cases hcol : row[x.toNat]? with
      | none => rw [hcol] at h; simp at h
      | some v =>
        have hxlt : x.toNat < row.length := (List.getElem?_eq_some_iff.mp hcol).1
        have hrl : row.length = 8 := hg.2 row (List.getElem?_mem hrow)
        exact ⟨⟨hs.1, by omega⟩, ⟨hs.2, by omega⟩⟩
  · rw [getCell_neg g x y hs] at h; simp at h

/-- Every in-range coordinate pair (in `Nat` form) appears in the scan
order. -/
theorem mem_coords64_nat (a b : Nat) (ha : a < 8) (hb : b < 8) :
    ((a : Int), (b : Int)) ∈ coords64 := by
  interval_cases a <;> interval_cases b <;> decide

/-- Every in-range coordinate pair appears in the scan order. -/
theorem mem_coords64 (x y : Int) (hx : inB x) (hy : inB y) :
    (x, y) ∈ coords64 := by
  obtain ⟨hx0, hx8⟩ := hx
  obtain ⟨hy0, hy8⟩ := hy
  have h := mem_coords64_nat x.toNat y.toNat (by omega) (by omega)
  rwa [Int.toNat_of_nonneg hx0, Int.toNat_of_nonneg hy0] at h

/-- A zero piece count means no cell holds that piece. -/
theorem getCell_ne_of_count_zero (g : Grid) (col : Colour) (t : ChessPieceType)
    (hg : okGrid g) (hz : pieceCount g col t = 0) :
    ∀ x y : Int, getCell g x y ≠ some ⟨t, col⟩ := by
  intro x y hcell
  obtain ⟨hx, hy⟩ := getCell_some_inB g x y _ hg hcell
  have hmem := mem_coords64 x y hx hy
  have hpred := (List.countP_eq_zero.mp hz) (x, y) hmem
  apply hpred
  simp [cellIs, hcell]

/-- The king hunt of `whiteInCheck` cannot find a white king that is not on
the board. -/
theorem kingHuntW_no_king (st : BoardState)
    (hno : ∀ x y : Int, getCell st.board x y ≠
      some ⟨ChessPieceType.King, Colour.White⟩) :
    ∀ ms : List Square, kingHuntW st ms ≠ .ok true := by
  intro ms
  induction ms with
  | nil => simp [kingHuntW]
  | cons m rest ih =>
    unfold kingHuntW
    cases hp : pieceAtE st.board m.x m.y with
    | error e => simp [hp, exBind_err]
    | ok v =>
      simp only [hp, exBind_ok]
      cases v with
      | none => exact ih
      | some q =>
        by_cases hq : q.is Colour.White ChessPieceType.King
        · exfalso
          have := pieceAtE_ok_val _ _ _ _ hp
          rw [(is_iff_eq q _ _).mp hq] at this
          exact hno m.x m.y this.symm
        · simp only [if_neg hq]
          exact ih

/-- The scan of `whiteInCheck` cannot report a check without a white king
on the board. -/
theorem whiteScan_no_king (st : BoardState)
    (hno : ∀ x y : Int, getCell st.board x y ≠
      some ⟨ChessPieceType.King, Colour.White⟩) :
    ∀ ℓ : List (Int × Int), whiteScan st ℓ ≠ .ok true := by
  intro ℓ
  induction ℓ with
  | nil => simp [whiteScan]
  | cons c rest ih =>
    obtain ⟨x, y⟩ := c
    unfold whiteScan
    cases hp : pieceAtE st.board x y with
    | error e => simp [hp, exBind_err]
    | ok v =>
      simp only [hp, exBind_ok]
      cases v with
      | none => exact ih
      | some q =>
        by_cases hq : q.colour = Colour.Black
        · simp only [if_pos hq]
          cases hm : pseudoMoves st x y with
          | error e => simp [hm, exBind_err]
          | ok ms =>
            simp only [hm, exBind_ok]
            cases hf : kingHuntW st ms with
            | error e => simp [hf, exBind_err]
            | ok found =>
              simp only [hf, exBind_ok]
              cases found with
              | true => exact absurd hf (kingHuntW_no_king st hno ms)
              | false => simpa using ih
        · simp only [if_neg hq]
          exact ih

/-- The king hunt of `blackInCheck` cannot find a black king that is not on
the board. -/
theorem kingHuntB_no_king (st : BoardState)
    (hno : ∀ x y : Int, getCell st.board x y ≠
      some ⟨ChessPieceType.King, Colour.Black⟩) :
    ∀ ms : List Square, kingHuntB st ms ≠ .ok true := by
  intro ms
  induction ms with
  | nil => simp [kingHuntB]
  | cons m rest ih =>
    unfold kingHuntB
    cases hp : pieceAtE st.board m.x m.y with
    | error e => simp [hp, exBind_err]
    | ok v =>
      simp only [hp, exBind_ok]
      cases v with
      | none => exact ih
      | some q =>
        by_cases hq : q.is Colour.Black ChessPieceType.King
        · exfalso
          have := pieceAtE_ok_val _ _ _ _ hp
          rw [(is_iff_eq q _ _).mp hq] at this
          exact hno m.x m.y this.symm
        · simp only [if_neg hq]
          exact ih

/-- The scan of `blackInCheck` cannot report a check without a black king
on the board. -/
theorem blackScan_no_king (st : BoardState)
    (hno : ∀ x y : Int, getCell st.board x y ≠
      some ⟨ChessPieceType.King, Colour.Black⟩) :
    ∀ ℓ : List (Int × Int), blackScan st ℓ ≠ .ok true := by
  intro ℓ
  induction ℓ with
  | nil => simp [blackScan]
  | cons c rest ih =>
    obtain ⟨x, y⟩ := c
    unfold blackScan
    cases hp : pieceAtE st.board x y with
    | error e => simp [hp, exBind_err]
    | ok v =>
      simp only [hp, exBind_ok]
      cases v with
      | none => exact ih
      | some q =>
        by_cases hq : q.colour = Colour.White
        · simp only [if_pos hq]
          cases hm : pseudoMoves st x y with
          | error e => simp [hm, exBind_err]
          | ok ms =>
            simp only [hm, exBind_ok]
            cases hf : kingHuntB st ms with
            | error e => simp [hf, exBind_err]
            | ok found =>
              simp only [hf, exBind_ok]
              cases found with
              | true => exact absurd hf (kingHuntB_no_king st hno ms)
              | false => simpa using ih
        · simp only [if_neg hq]
          exact ih

/-- C8 (amended): on a well-formed board with no king of the required
colour, the check detectors never report a check — in particular they do
not abort with a missing-king error; when the scan completes it returns
`false`. -/
theorem inCheck_missing_king_never_reports_check :
    (∀ st : BoardState, okGrid st.board →
      pieceCount st.board Colour.White ChessPieceType.King = 0 →
      whiteInCheckE st ≠ .ok true) ∧
    (∀ st : BoardState, okGrid st.board →
      pieceCount st.board Colour.Black ChessPieceType.King = 0 →
      blackInCheckE st ≠ .ok true) := by
  constructor
  · intro st hg hz
    exact whiteScan_no_king st (getCell_ne_of_count_zero _ _ _ hg hz) coords64
  · intro st hg hz
    exact blackScan_no_king st (getCell_ne_of_count_zero _ _ _ hg hz) coords64

/-- C8 witness: the white-side statement applied to the fully empty
board. -/
theorem inCheck_missing_king_witness :
    (okGrid emptyState.board ∧
      pieceCount emptyState.board Colour.White ChessPieceType.King = 0) ∧
    whiteInCheckE emptyState ≠ .ok true :=
  ⟨⟨by decide, by decide⟩,
    inCheck_missing_king_never_reports_check.1 emptyState (by decide) (by decide)⟩


/-- The scan of `insufficientMaterial` aborts (early `return false`) when a
pawn, queen or rook appears among the scanned cells. -/
theorem imScan_none (g : Grid) : ∀ (ℓ : List (Int × Int)) (acc : MatCounts),
    (∃ c ∈ ℓ, ∃ p, getCell g c.1 c.2 = some p ∧ isPQR p.type) →
    imScan g ℓ acc = none := by
  intro ℓ
  induction ℓ with
  | nil =>
    intro acc h
    obtain ⟨c, hc, _⟩ := h
    cases hc
  | cons c0 rest ih =>
    intro acc h
    obtain ⟨x0, y0⟩ := c0
    obtain ⟨c, hc, p, hcell, hpqr⟩ := h
    rcases List.mem_cons.mp hc with rfl | hrest
    · simp only [imScan, hcell, if_pos hpqr]
    · cases hcell0 : getCell g x0 y0 with
      | none =>
        simp only [imScan, hcell0]
        exact ih acc ⟨c, hrest, p, hcell, hpqr⟩
      | some q =>
        by_cases hq : isPQR q.type
        · simp only [imScan, hcell0, if_pos hq]
        · simp only [imScan, hcell0, if_neg hq]
          exact ih _ ⟨c, hrest, p, hcell, hpqr⟩

/-- When no pawn, queen or rook appears, the scan of
`insufficientMaterial` completes and its counters are the per-piece cell
counts (offset by the accumulator). -/
theorem imScan_some (g : Grid) : ∀ (ℓ : List (Int × Int)),
    (∀ c ∈ ℓ, ∀ p, getCell g c.1 c.2 = some p → ¬ isPQR p.type) →
    ∀ acc : MatCounts, imScan g ℓ acc = some
      { whiteKnights := acc.whiteKnights +
          ℓ.countP (cellIs g ⟨ChessPieceType.Knight, Colour.White⟩)
        whiteBishops := acc.whiteBishops +
          ℓ.countP (cellIs g ⟨ChessPieceType.Bishop, Colour.White⟩)
        whitePieces := acc.whitePieces + ℓ.countP (cellColour g Colour.White)
        blackKnights := acc.blackKnights +
          ℓ.countP (cellIs g ⟨ChessPieceType.Knight, Colour.Black⟩)
        blackBishops := acc.blackBishops +
          ℓ.countP (cellIs g ⟨ChessPieceType.Bishop, Colour.Black⟩)
        blackPieces := acc.blackPieces + ℓ.countP (cellColour g Colour.Black) } := by
  intro ℓ
  induction ℓ with
  | nil =>
    intro _ acc
    simp [imScan]
  | cons c0 rest ih =>
    intro hno acc
    obtain ⟨x0, y0⟩ := c0
    have hrest : ∀ c ∈ rest, ∀ p, getCell g c.1 c.2 = some p → ¬ isPQR p.type :=
      fun c hc p hp => hno c (List.mem_cons_of_mem _ hc) p hp
    cases hcell : getCell g x0 y0 with
    | none =>
      simp only [imScan, hcell]
      rw [ih hrest acc]
      simp [cellIs, cellColour, List.countP_cons, hcell]
    | some p =>
      have hnp : ¬ isPQR p.type :=
        hno (x0, y0) (List.mem_cons_self _ _) p hcell
      simp only [imScan, hcell, if_neg hnp]
      rw [ih hrest (bumpCounts acc p)]
      clear ih hrest hno
      obtain ⟨pt, pc⟩ := p
      simp only [Option.some.injEq, MatCounts.mk.injEq]
      cases pc <;> cases pt <;>
        simp_all [bumpCounts, cellIs, cellColour, List.countP_cons,
          ChessPiece.is, isPQR] <;>
        omega

/-- The per-colour cell count decomposes into the six per-type counts. -/
theorem colourCount_decomp (g : Grid) (col : Colour) :
    ∀ ℓ : List (Int × Int),
    ℓ.countP (cellColour g col) =
      ℓ.countP (cellIs g ⟨ChessPieceType.King, col⟩) +
      ℓ.countP (cellIs g ⟨ChessPieceType.Queen, col⟩) +
      ℓ.countP (cellIs g ⟨ChessPieceType.Rook, col⟩) +
      ℓ.countP (cellIs g ⟨ChessPieceType.Bishop, col⟩) +
      ℓ.countP (cellIs g ⟨ChessPieceType.Knight, col⟩) +
      ℓ.countP (cellIs g ⟨ChessPieceType.Pawn, col⟩) := by
  intro ℓ
  induction ℓ with
  | nil => simp
  | cons c rest ih =>
    simp only [List.countP_cons]
    cases hcell : getCell g c.1 c.2 with
    | none =>
      simp [cellIs, cellColour, hcell, ih]
    | some p =>
      obtain ⟨pt, pc⟩ := p
      cases col <;> cases pc <;> cases pt <;>
        simp_all [cellIs, cellColour] <;>
        omega

/-- Without a pawn, queen or rook on the board, the corresponding per-type
counts vanish. -/
theorem pqr_count_zero (g : Grid) (hno : ¬ anyPQRCell g) (col : Colour)
    (t : ChessPieceType) (ht : isPQR t) : pieceCount g col t = 0 := by
  apply List.countP_eq_zero.mpr
  intro c hc
  intro habs
  simp only [cellIs, beq_iff_eq] at habs
  exact hno ⟨c, hc, ⟨t, col⟩, habs, ht⟩

/-- On a board without pawns, queens or rooks and with exactly one king of
colour `col`, having "only the bare king" is the same as the colour's
total piece count being 1. -/
theorem bareKing_iff (g : Grid) (col : Colour) (hno : ¬ anyPQRCell g)
    (hk : pieceCount g col ChessPieceType.King = 1) :
    onlyBareKing g col ↔ colourCount g col = 1 := by
  have hdec := colourCount_decomp g col coords64
  have hp : pieceCount g col ChessPieceType.Pawn = 0 :=
    pqr_count_zero g hno col _ (Or.inl rfl)
  have hq : pieceCount g col ChessPieceType.Queen = 0 :=
    pqr_count_zero g hno col _ (Or.inr (Or.inl rfl))
  have hr : pieceCount g col ChessPieceType.Rook = 0 :=
    pqr_count_zero g hno col _ (Or.inr (Or.inr rfl))
  unfold pieceCount at hk hp hq hr
  unfold colourCount
  rw [hdec, hk, hp, hq, hr]
  constructor
  · intro hbare
    have hkn : coords64.countP (cellIs g ⟨ChessPieceType.Knight, col⟩) = 0 := by
      apply List.countP_eq_zero.mpr
      intro c hc habs
      simp only [cellIs, beq_iff_eq] at habs
      have := hbare c hc _ habs rfl
      cases this
    have hbi : coords64.countP (cellIs g ⟨ChessPieceType.Bishop, col⟩) = 0 := by
      apply List.countP_eq_zero.mpr
      intro c hc habs
      simp only [cellIs, beq_iff_eq] at habs
      have := hbare c hc _ habs rfl
      cases this
    omega
  · intro hcnt
    have hbi : coords64.countP (cellIs g ⟨ChessPieceType.Bishop, col⟩) = 0 := by omega
    have hkn : coords64.countP (cellIs g ⟨ChessPieceType.Knight, col⟩) = 0 := by omega
    intro c hc p hcell hcol
    cases hpt : p.type
    case King => rfl
    case Queen =>
      exfalso
      exact hno ⟨c, hc, p, hcell, Or.inr (Or.inl hpt)⟩
    case Rook =>
      exfalso
      exact hno ⟨c, hc, p, hcell, Or.inr (Or.inr hpt)⟩
    case Pawn =>
      exfalso
      exact hno ⟨c, hc, p, hcell, Or.inl hpt⟩
    case Knight =>
      exfalso
      have hpeq : p = ⟨ChessPieceType.Knight, col⟩ := by
        cases p
        simp_all
      have := (List.countP_eq_zero.mp hkn) c hc
      apply this
      simp [cellIs, hcell, hpeq]
    case Bishop =>
      exfalso
      have hpeq : p = ⟨ChessPieceType.Bishop, col⟩ := by
        cases p
        simp_all
      have := (List.countP_eq_zero.mp hbi) c hc
      apply this
      simp [cellIs, hcell, hpeq]

/-- C7: `insufficientMaterial()` is false whenever a pawn, queen or rook
remains, and otherwise true iff both sides are individually insufficient
in the claim's sense; a two-kings position reports insufficient material
and an ended game with the insufficient-material reason for either side to
move. -/
theorem insufficientMaterial_matches_claim :
    (∀ st : BoardState, okGrid st.board →
      pieceCount st.board Colour.White ChessPieceType.King = 1 →
      pieceCount st.board Colour.Black ChessPieceType.King = 1 →
      (insufficientMaterial st = true ↔ claimInsufficientMaterial st.board)) ∧
    (insufficientMaterial tkW = true ∧ endedE tkW = .ok true ∧
      endReasonE tkW = .ok (some "Draw by insufficient material")) ∧
    (insufficientMaterial tkB = true ∧ endedE tkB = .ok true ∧
      endReasonE tkB = .ok (some "Draw by insufficient material")) := by
  refine ⟨?_, by decide, by decide⟩
  intro st hg hwk hbk
  by_cases hpqr : anyPQRCell st.board
  · have hnone : imScan st.board coords64 ⟨0, 0, 0, 0, 0, 0⟩ = none := by
      obtain ⟨c, hc, p, hcell, hp⟩ := hpqr
      exact imScan_none st.board coords64 _ ⟨c, hc, p, hcell, hp⟩
    constructor
    · intro habs
      unfold insufficientMaterial at habs
      rw [hnone] at habs
      cases habs
    · intro hclaim
      exact absurd hpqr hclaim.1
  · have hno' : ∀ c ∈ coords64, ∀ p, getCell st.board c.1 c.2 = some p →
        ¬ isPQR p.type := by
      intro c hc p hcell hPQR
      exact hpqr ⟨c, hc, p, hcell, hPQR⟩
    have hsome := imScan_some st.board coords64 hno' ⟨0, 0, 0, 0, 0, 0⟩
    have hWbare := bareKing_iff st.board Colour.White hpqr hwk
    have hBbare := bareKing_iff st.board Colour.Black hpqr hbk
    unfold insufficientMaterial
    rw [hsome]
    simp only [Nat.zero_add, decide_eq_true_eq]
    unfold claimInsufficientMaterial sideInsufficient otherColour
    rw [hWbare, hBbare]
    unfold pieceCount colourCount
    constructor
    · intro hcode
      exact ⟨hpqr, hcode.1, hcode.2⟩
    · intro hclaim
      exact ⟨hclaim.2.1, hclaim.2.2⟩

/-- C7 witness: the equivalence applied to the two-kings board with White
to move. -/
theorem insufficientMaterial_matches_claim_witness :
    (okGrid tkW.board ∧
      pieceCount tkW.board Colour.White ChessPieceType.King = 1 ∧
      pieceCount tkW.board Colour.Black ChessPieceType.King = 1) ∧
    (insufficientMaterial tkW = true ↔ claimInsufficientMaterial tkW.board) :=
  ⟨⟨by decide, by decide, by decide⟩,
    insufficientMaterial_matches_claim.1 tkW (by decide) (by decide) (by decide)⟩

end HChess
